import Mathlib

/-
Verification development for the PINet TensorRT post-processing code
(src/PINetTensorrt.cpp).

Shallow embedding conventions
=============================
* Machine `float` values are modelled as rationals (ℚ); `float` tensors are
  total functions `Nat → ℚ` over their linear (channel-major) index space.
* The source iterates every spatial loop as
      for (i = 0; i < dim.d[2]; ++i) for (j = 0; j < dim.d[1]; ++j)
  walking the tensor pointer linearly.  We therefore take the grid height
  (row count) to be `H := dim.d[2]`, the width (column count) `W := dim.d[1]`,
  a cell `(i, j)` with `i < H`, `j < W`, and the linear index `i * W + j`:
  the row-major raster order the spec describes (row outer, column inner).
* `cv::Mat` element-type punning in the source (`at<int>` on a `CV_8UC1`
  matrix, `ptr<cv::Vec3b>` on a `CV_32FC1` matrix) and the byte-stride slip
  in `chwDataToMat` (`data + data_size * c`, where `data_size` already
  includes `sizeof(float)`) are memory-layout artifacts with no defined
  value-level semantics; the embedding uses the evident logical reads and
  writes: a boolean mask indexed by `(i, j)`, and channel `c` of a
  channel-major tensor starting at linear offset `c * (W * H)`.
* The clustering stage of `generate_result` exists in the source only as
  the commented-out reference implementation (lines 321-353); it is the code
  the claims cite, and it is embedded here literally (including its `index`
  clamping at 12 and its distance test
  `np.linalg.norm((feature[i] - j)**2) <= threshold_instance`, which is
  equivalent, for nonnegative threshold, to
  `(Δ₀)⁴ + (Δ₁)⁴ ≤ threshold_instance²`).
* The compiled body of the keypoint loop is empty; the keypoints it
  computes and does not discard are exactly what the commented clustering
  stage consumes, so the embedding materialises them as a list.
-/

namespace PINet

/-- Source line 271: `const float threshold_point = 0.81f;`. -/
def threshold_point : ℚ := 81 / 100

/-- Source line 272: `const float threshold_instance = 0.22f;`. -/
def threshold_instance : ℚ := 22 / 100

/-- Source line 273: `const int resize_ratio = 8;` (used as a float factor). -/
def resize_ratio : ℚ := 8

/-! ### Confidence mask (source lines 281-289) -/

/-- One store `mask.at(i, j) = 1` into the mask, modelled functionally. -/
def maskSet (m : Nat × Nat → Bool) (p : Nat × Nat) : Nat × Nat → Bool :=
  fun q => if q = p then true else m q

/-- The inner loop over `j < W` of the mask construction: the confidence
pointer stands at linear offset `i * W + j` for cell `(i, j)`, and the cell
is marked when `*confidance_ptr > thresh`. -/
def maskRowLoop (conf : Nat → ℚ) (thresh : ℚ) (W i : Nat)
    (m : Nat × Nat → Bool) : Nat × Nat → Bool :=
  (List.range W).foldl
    (fun acc j => if thresh < conf (i * W + j) then maskSet acc (i, j) else acc) m

/-- Source lines 281-289: `mask = zeros; for i < H: for j < W: if conf > thresh
then mask.at(i, j) = 1`. -/
def maskLoop (conf : Nat → ℚ) (thresh : ℚ) (H W : Nat) : Nat × Nat → Bool :=
  (List.range H).foldl (fun acc i => maskRowLoop conf thresh W i acc)
    (fun _ => false)

/-! ### `chwDataToMat` (source lines 251-268) -/

/-- Source lines 251-268: converts a channel-major tensor into a per-cell
matrix, scaling every entry by the mask value at its cell (`*channel_data *
mask.at(w, h)`), so entries of masked-out cells become `0`.  Channel `c`
starts at linear offset `c * (width * height)`; cell `(i, j)` of a channel
lies at linear offset `i * width + j` within it. -/
def chwDataToMat (width height : Nat) (data : Nat → ℚ)
    (mask : Nat × Nat → Bool) : Nat → Nat × Nat → ℚ :=
  fun c p => data (c * (width * height) + p.1 * width + p.2) *
    (if mask p then 1 else 0)

/-! ### The feature grid consumed by `generate_result` -/

/-- The three output tensors consumed by one decode call, with the spatial
extents `H` (rows, `dim.d[2]`) and `W` (columns, `dim.d[1]`) they share:
confidence `1×H×W`, offset `2×H×W`, embedding (instance) `4×H×W`. -/
structure FeatureGrid where
  H : Nat
  W : Nat
  conf : Nat → ℚ
  offs : Nat → ℚ
  inst : Nat → ℚ

/-- The confidence value of cell `(i, j)`: the linear walk of the source's
`confidance_ptr` reads offset `i * W + j` there. -/
def confAt (g : FeatureGrid) (i j : Nat) : ℚ := g.conf (i * g.W + j)

/-- Channel `c` of the offset tensor at cell `(i, j)`. -/
def offsAt (g : FeatureGrid) (c i j : Nat) : ℚ :=
  g.offs (c * (g.W * g.H) + i * g.W + j)

/-- Channel `c` of the embedding (instance) tensor at cell `(i, j)`. -/
def instAt (g : FeatureGrid) (c i j : Nat) : ℚ :=
  g.inst (c * (g.W * g.H) + i * g.W + j)

/-- The mask `generate_result` builds from the confidence tensor at the
default threshold `threshold_point` (the value `verifyOutput` passes). -/
def maskOf (g : FeatureGrid) : Nat × Nat → Bool :=
  maskLoop g.conf threshold_point g.H g.W

/-- Source line 300: `feature = chwDataToMat(instance_dim..., instance, mask)`:
the per-cell embedding matrix, mask-scaled. -/
def featureOf (g : FeatureGrid) : Nat → Nat × Nat → ℚ :=
  chwDataToMat g.W g.H g.inst (maskOf g)

/-- The C cast `(int)` on a float: truncation toward zero. -/
def ratTrunc (q : ℚ) : ℤ := if 0 ≤ q then ⌊q⌋ else ⌈q⌉

/-- A surviving detection of the keypoint loop: its source cell `(i, j)`,
its reconstructed pixel point `(px, py)`, and the two embedding values
`feature0, feature1` it carries into clustering. -/
structure Keypoint where
  i : Nat
  j : Nat
  px : ℤ
  py : ℤ
  f : ℚ × ℚ
deriving DecidableEq, Repr

/-- Source lines 302-318, body of the double loop at cell `(i, j)`:
read `feature0, feature1` from channels 0 and 1 of the (mask-scaled)
embedding matrix; skip the cell when `fabs(feature0) + fabs(feature1) <
0.000001f`; reconstruct `point_x = (int)((feature0 + j) * resize_ratio)`,
`point_y = (int)((feature1 + i) * resize_ratio)`; skip when `point_x < 0 ||
point_x >= dim.d[1] || point_y < 0 || point_y >= dim.d[2]`; otherwise the
cell survives as a `Keypoint`. -/
def cellKeypoint (H W : Nat) (feat : Nat → Nat × Nat → ℚ) (i j : Nat) :
    Option Keypoint :=
  let feature0 := feat 0 (i, j)
  let feature1 := feat 1 (i, j)
  if |feature0| + |feature1| < 1 / 1000000 then none
  else
    let point_x := ratTrunc ((feature0 + (j : ℚ)) * resize_ratio)
    let point_y := ratTrunc ((feature1 + (i : ℚ)) * resize_ratio)
    if point_x < 0 ∨ (W : ℤ) ≤ point_x ∨ point_y < 0 ∨ (H : ℤ) ≤ point_y then
      none
    else some ⟨i, j, point_x, point_y, (feature0, feature1)⟩

/-- The double loop of source lines 302-318 in raster order (`i` outer,
`j` inner), collecting the surviving keypoints. -/
def keypointLoop (H W : Nat) (feat : Nat → Nat × Nat → ℚ) : List Keypoint :=
  (List.range H).flatMap
    (fun i => (List.range W).filterMap (fun j => cellKeypoint H W feat i j))

/-- The keypoints one decode call feeds into the clustering stage. -/
def keypointsOf (g : FeatureGrid) : List Keypoint :=
  keypointLoop g.H g.W (featureOf g)

/-! ### Clustering stage (source lines 321-353, the commented reference
implementation embedded literally) -/

/-- The matching test of source line 340,
`np.linalg.norm((feature[i] - j)**2) <= p.threshold_instance`: the ℓ2 norm
of the componentwise-squared difference is at most the threshold.  Squaring
both (nonnegative) sides gives the equivalent square-root-free form used
here: `(Δ₀²)² + (Δ₁²)² ≤ threshold_instance²`. -/
def instMatch (f m : ℚ × ℚ) : Prop :=
  (f.1 - m.1) ^ 4 + (f.2 - m.2) ^ 4 ≤ threshold_instance ^ 2

instance instMatchDecidable (f m : ℚ × ℚ) : Decidable (instMatch f m) :=
  inferInstanceAs
    (Decidable ((f.1 - m.1) ^ 4 + (f.2 - m.2) ^ 4 ≤ threshold_instance ^ 2))

/-- The candidate scan of source lines 336-345: walk `lane_feature` in
creation order and stop at the first entry passing `instMatch`, returning
its position; the loop has no bound of its own. -/
def scanClusters (f : ℚ × ℚ) : List (ℚ × ℚ) → Option Nat
  | [] => none
  | m :: rest =>
    if instMatch f m then some 0
    else (scanClusters f rest).map (fun n => n + 1)

/-- The clustering state: `laneFeature` holds each cluster's running-mean
embedding in creation order, `xs`/`ys` the per-cluster coordinate lists.
`members` is proof-only instrumentation recording, per cluster, the
embeddings of the keypoints whose match updated that cluster's mean (the
keypoints "assigned" to it); it carries no information back into the
algorithm. -/
structure ClusterState where
  laneFeature : List (ℚ × ℚ)
  xs : List (List ℤ)
  ys : List (List ℤ)
  members : List (List (ℚ × ℚ))
deriving DecidableEq, Repr

/-- One iteration of the per-keypoint loop, source lines 327-351.
On an empty cluster list the keypoint founds cluster 0.  Otherwise the scan
walks all clusters; the loop counter `index` is incremented per candidate
and clamped at 12, so at a match at position `fi` the coordinate lists at
position `index - 1 = min fi 11` receive the point and their length is the
count used by the running-mean update of `lane_feature[fi]`.  On no match a
new cluster is founded and the point is appended to the coordinate lists at
position `index = min count 12`. -/
def clusterStep (s : ClusterState) (kp : Keypoint) : ClusterState :=
  if s.laneFeature.isEmpty then
    ClusterState.mk [kp.f] [[kp.px]] [[kp.py]] [[kp.f]]
  else
    match scanClusters kp.f s.laneFeature with
    | some fi =>
      let li := min fi 11
      let n : Nat := (s.xs.getD li []).length
      let m := s.laneFeature.getD fi (0, 0)
      let m2 : ℚ × ℚ :=
        ((m.1 * n + kp.f.1) / (n + 1), (m.2 * n + kp.f.2) / (n + 1))
      ClusterState.mk (s.laneFeature.set fi m2)
        (s.xs.set li ((s.xs.getD li []) ++ [kp.px]))
        (s.ys.set li ((s.ys.getD li []) ++ [kp.py]))
        (s.members.set fi ((s.members.getD fi []) ++ [kp.f]))
    | none =>
      let idx := min s.laneFeature.length 12
      ClusterState.mk (s.laneFeature ++ [kp.f])
        ((s.xs ++ [[]]).set idx (((s.xs ++ [[]]).getD idx []) ++ [kp.px]))
        ((s.ys ++ [[]]).set idx (((s.ys ++ [[]]).getD idx []) ++ [kp.py]))
        (s.members ++ [[kp.f]])

/-- The empty clustering state the per-image pass starts from. -/
def initState : ClusterState := ClusterState.mk [] [] [] []

/-- The whole clustering pass over a keypoint sequence, in order. -/
def clusterRun (kps : List Keypoint) : ClusterState :=
  kps.foldl clusterStep initState

/-! ### `verifyOutput` dimension checks (source lines 368-374) -/

/-- A TensorRT `Dims` triple as `verifyOutput` reads it:
`d0` channels, `d1` width, `d2` height. -/
structure Dims3 where
  d0 : Int
  d1 : Int
  d2 : Int
deriving DecidableEq, Repr

/-- Source lines 372-374: the only dimension validation of a decode call,
`assert(confidanceDims.d[0] == 1); assert(offsetDims.d[0] == 2);
assert(instanceDims.d[0] == 4);` -/
def verifyOutputDims (confidanceDims offsetDims instanceDims : Dims3) : Bool :=
  confidanceDims.d0 == 1 && offsetDims.d0 == 2 && instanceDims.d0 == 4

/-! ### `generate_result` as a state transformer (for the frame claim) -/

/-- The memory `generate_result` touches: the three borrowed input tensors,
and the locals it allocates and writes (`mask`, `offset`, `feature`, and the
surviving keypoints its loop hands to the clustering stage). -/
structure GRState where
  H : Nat
  W : Nat
  confidance : Nat → ℚ
  offsets : Nat → ℚ
  instanceArr : Nat → ℚ
  mask : Nat × Nat → Bool
  offsetMat : Nat → Nat × Nat → ℚ
  featureMat : Nat → Nat × Nat → ℚ
  result : List Keypoint

/-- Source lines 275-354 in statement order: build the mask from the
confidence tensor (lines 281-289), convert the offset tensor (line 299) and
the embedding tensor (line 300) through `chwDataToMat`, then run the
keypoint loop over the feature matrix (lines 302-318).  Every write targets
a local; the three input tensors are only read. -/
def generate_result (st : GRState) : GRState :=
  let mask1 := maskLoop st.confidance threshold_point st.H st.W
  let offset1 := chwDataToMat st.W st.H st.offsets mask1
  let feature1 := chwDataToMat st.W st.H st.instanceArr mask1
  GRState.mk st.H st.W st.confidance st.offsets st.instanceArr
    mask1 offset1 feature1 (keypointLoop st.H st.W feature1)

/-! ### Definitions written from the specification's words (used to compare
the claims' wording against the embedded source) -/

/-- Modelled from the spec: the squared distance
`dist = sum((keypoint.embedding[k] - cluster.mean[k])^2 for k in 0..1)`
the clustering contract of the spec prescribes. -/
def sqDistSpec (f m : ℚ × ℚ) : ℚ := (f.1 - m.1) ^ 2 + (f.2 - m.2) ^ 2

/-- Modelled from the spec: coordinate reconstruction
`point_x = round((dx + col) * resize_ratio)`,
`point_y = round((dy + row) * resize_ratio)` from the offset components
`(dx, dy)` of a cell.  Returns `(point_x, point_y)`. -/
def specPoint (dx dy : ℚ) (row col : Nat) : ℤ × ℤ :=
  (round ((dx + (col : ℚ)) * resize_ratio),
   round ((dy + (row : ℚ)) * resize_ratio))

/-- Modelled from the spec: the input arrays' declared spatial dimensions
are consistent (H and W identical across the three arrays). -/
def specDimsConsistent (confidanceDims offsetDims instanceDims : Dims3) :
    Bool :=
  confidanceDims.d1 == offsetDims.d1 && confidanceDims.d2 == offsetDims.d2 &&
  offsetDims.d1 == instanceDims.d1 && offsetDims.d2 == instanceDims.d2

/-- Modelled from the spec: the arithmetic mean of a list of embedding
vectors, componentwise. -/
def meanVec (l : List (ℚ × ℚ)) : ℚ × ℚ :=
  ((l.map Prod.fst).sum / l.length, (l.map Prod.snd).sum / l.length)

/-- Boolean form of `instMatch` (for executable statements). -/
def instMatchB (f m : ℚ × ℚ) : Bool := decide (instMatch f m)

/-- Modelled from the spec: among the first 12 candidate clusters of `s`
(the candidate set the spec's cap prescribes), none matches `f`. -/
def noMatchInFirstTwelve (s : ClusterState) (f : ℚ × ℚ) : Bool :=
  (s.laneFeature.take 12).all (fun m => ! instMatchB f m)

/-! ### Invariant stated by the running-mean claim -/

/-- Well-formedness plus the running-mean property: the bookkeeping lists
are aligned with the cluster list, each cluster's coordinate-list length is
its member count, and each cluster's running mean is the arithmetic mean of
the embeddings assigned to it. -/
def MeanInv (s : ClusterState) : Prop :=
  s.xs.length = s.laneFeature.length ∧
  s.ys.length = s.laneFeature.length ∧
  s.members.length = s.laneFeature.length ∧
  ∀ k, k < s.laneFeature.length →
    ((s.xs.getD k []).length = (s.members.getD k []).length ∧
     (s.members.getD k []) ≠ [] ∧
     s.laneFeature.getD k (0, 0) = meanVec (s.members.getD k []))

/-! ### Concrete inputs used by the witnesses and counterexamples -/

/-- A keypoint at cell `(0, 0)`, point `(0, 0)`, with embedding `(q, 0)`. -/
def kpF (q : ℚ) : Keypoint := Keypoint.mk 0 0 0 0 (q, 0)

/-- `n` keypoints whose embeddings `(0,0), (1,0), …, (n-1,0)` are pairwise
far apart, so each founds its own cluster. -/
def createKps (n : Nat) : List Keypoint :=
  (List.range n).map (fun (k : Nat) => kpF (k : ℚ))

/-- The clustering state after processing `createKps n` (for `n ≤ 13`):
`n` singleton clusters in creation order. -/
def createState (n : Nat) : ClusterState :=
  ClusterState.mk ((List.range n).map (fun (k : Nat) => ((k : ℚ), 0)))
    (List.replicate n [0]) (List.replicate n [0])
    ((List.range n).map (fun (k : Nat) => [((k : ℚ), 0)]))

/-- Thirteen founding keypoints, one keypoint joining cluster 11, then one
keypoint whose only match is cluster 12 — the 13th cluster, past the
position-12 clamp. -/
def exKps : List Keypoint :=
  createKps 13 ++ [kpF (111 / 10), kpF (121 / 10)]

/-- The clustering state after the 14th keypoint of `exKps`: the keypoint
`(111/10, 0)` has joined cluster 11, whose coordinate lists grew to
length 2. -/
def exState14 : ClusterState :=
  ClusterState.mk
    ((createState 13).laneFeature.set 11 ((221 : ℚ) / 20, (0 : ℚ)))
    ((createState 13).xs.set 11 [0, 0])
    ((createState 13).ys.set 11 [0, 0])
    ((createState 13).members.set 11 [((11 : ℚ), (0 : ℚ)), (111 / 10, 0)])

/-- The clustering state after the 15th keypoint of `exKps`: the keypoint
`(121/10, 0)` matched cluster 12 (the 13th), but the clamp at position 11
supplied the count for its mean update and received its coordinates. -/
def exState15 : ClusterState :=
  ClusterState.mk
    (exState14.laneFeature.set 12 ((361 : ℚ) / 30, (0 : ℚ)))
    (exState14.xs.set 11 [0, 0, 0])
    (exState14.ys.set 11 [0, 0, 0])
    (exState14.members.set 12 [((12 : ℚ), (0 : ℚ)), (121 / 10, 0)])

/-- A 1×3 grid whose single positive cell `(0, 0)` has offset channels
`(0.06, 0.01)` and embedding channels `(0.32, 0.01)`. -/
def exGrid3 : FeatureGrid :=
  FeatureGrid.mk 1 3
    (fun p => if p = 0 then 9 / 10 else 0)
    (fun p => if p = 0 then 3 / 50 else if p = 3 then 1 / 100 else 0)
    (fun p => if p = 0 then 8 / 25 else if p = 3 then 1 / 100 else 0)

/-- A 1×1 grid whose positive cell has embedding channels `(1/16, 1/16)`. -/
def exGrid1 : FeatureGrid :=
  FeatureGrid.mk 1 1
    (fun _ => 9 / 10)
    (fun _ => 0)
    (fun p => if p ≤ 1 then 1 / 16 else 0)

/-- A 1×1 grid whose positive cell has both embedding channels equal to
`0.75e-6`: each is below `1e-6` but their sum is not. -/
def exGridEps : FeatureGrid :=
  FeatureGrid.mk 1 1
    (fun _ => 9 / 10)
    (fun _ => 0)
    (fun p => if p ≤ 1 then 3 / 4000000 else 0)

/-- A 1×1 grid whose positive cell has embedding-channel sum below `1e-6`,
hence is skipped as degenerate. -/
def exGridEpsSmall : FeatureGrid :=
  FeatureGrid.mk 1 1
    (fun _ => 9 / 10)
    (fun _ => 0)
    (fun p => if p = 0 then 1 / 10000000 else 0)

/-- A 1×1 grid whose positive cell reconstructs to `point_x = 4`: inside the
upsampled image extent (`W * resize_ratio = 8`) but outside the grid extent
`W = 1`, so the point is skipped. -/
def exGridOob : FeatureGrid :=
  FeatureGrid.mk 1 1
    (fun _ => 9 / 10)
    (fun _ => 0)
    (fun p => if p = 0 then 1 / 2 else 0)

/-- A `generate_result` input state. -/
def exStateA : GRState :=
  GRState.mk 1 1 (fun _ => 9 / 10) (fun _ => 0) (fun p => if p ≤ 1 then 1 / 16 else 0)
    (fun _ => false) (fun _ _ => 0) (fun _ _ => 0) []

/-- The same input state with every offset value replaced by `5`. -/
def exStateB : GRState :=
  GRState.mk 1 1 (fun _ => 9 / 10) (fun _ => 5) (fun p => if p ≤ 1 then 1 / 16 else 0)
    (fun _ => false) (fun _ _ => 0) (fun _ _ => 0) []

/-! ### Helper lemmas: the confidence-mask loop -/

/-- Value-level characterisation of the inner mask loop over a column list:
a point is set exactly when it was already set, or lies on row `i` at a
visited column whose confidence beats the threshold. -/
theorem maskRow_foldl_apply (conf : Nat → ℚ) (thresh : ℚ) (W i : Nat)
    (l : List Nat) (m : Nat × Nat → Bool) (q : Nat × Nat) :
    ((l.foldl
      (fun acc j => if thresh < conf (i * W + j) then maskSet acc (i, j) else acc)
      m) q = true) ↔
      (m q = true ∨ (q.1 = i ∧ q.2 ∈ l ∧ thresh < conf (i * W + q.2))) := by
  induction l generalizing m with
  | nil => simp
  | cons j rest ih =>
    rw [List.foldl_cons, ih]
    rcases q with ⟨q1, q2⟩
    by_cases hc : thresh < conf (i * W + j)
    · rw [if_pos hc]
      by_cases h1 : q1 = i
      · by_cases h2 : q2 = j
        · subst h1; subst h2
          simp [maskSet, hc]
        · simp only [maskSet, List.mem_cons]
          have hne : (q1, q2) ≠ (i, j) := by
            intro hcontr
            exact h2 (congrArg Prod.snd hcontr)
          rw [if_neg hne]
          tauto
      · have hne : (q1, q2) ≠ (i, j) := by
          intro hcontr
          exact h1 (congrArg Prod.fst hcontr)
        simp only [maskSet, List.mem_cons]
        rw [if_neg hne]
        tauto
    · rw [if_neg hc]
      constructor
      · rintro (hm | ⟨h1, h2, h3⟩)
        · exact Or.inl hm
        · exact Or.inr ⟨h1, List.mem_cons_of_mem _ h2, h3⟩
      · rintro (hm | ⟨h1, h2, h3⟩)
        · exact Or.inl hm
        · rcases List.mem_cons.mp h2 with h2 | h2
          · subst h2
            exact absurd h3 hc
          · exact Or.inr ⟨h1, h2, h3⟩

/-- Value-level characterisation of the outer mask loop over a row list. -/
theorem maskLoop_foldl_apply (conf : Nat → ℚ) (thresh : ℚ) (W : Nat)
    (L : List Nat) (m : Nat × Nat → Bool) (q : Nat × Nat) :
    ((L.foldl (fun acc i => maskRowLoop conf thresh W i acc) m) q = true) ↔
      (m q = true ∨ (q.1 ∈ L ∧ q.2 < W ∧ thresh < conf (q.1 * W + q.2))) := by
  induction L generalizing m with
  | nil => simp
  | cons i rest ih =>
    rw [List.foldl_cons, ih]
    rw [maskRowLoop, maskRow_foldl_apply]
    simp only [List.mem_range, List.mem_cons]
    constructor
    · rintro ((hm | ⟨h1, h2, h3⟩) | ⟨h1, h2, h3⟩)
      · exact Or.inl hm
      · subst h1; exact Or.inr ⟨Or.inl rfl, h2, h3⟩
      · exact Or.inr ⟨Or.inr h1, h2, h3⟩
    · rintro (hm | ⟨h1 | h1, h2, h3⟩)
      · exact Or.inl (Or.inl hm)
      · subst h1; exact Or.inl (Or.inr ⟨rfl, h2, h3⟩)
      · exact Or.inr ⟨h1, h2, h3⟩

/-- The mask built by `generate_result` holds exactly the in-range cells
whose confidence strictly exceeds the threshold. -/
theorem maskOf_iff (g : FeatureGrid) (i j : Nat) :
    maskOf g (i, j) = true ↔
      (i < g.H ∧ j < g.W ∧ threshold_point < confAt g i j) := by
  rw [maskOf, maskLoop, maskLoop_foldl_apply]
  simp [confAt, List.mem_range, and_assoc]

/-- The feature matrix is the embedding tensor scaled by the mask. -/
theorem featureOf_apply (g : FeatureGrid) (c i j : Nat) :
    featureOf g c (i, j) =
      instAt g c i j * (if maskOf g (i, j) then 1 else 0) := rfl

/-- On a masked-in cell the feature matrix returns the raw embedding. -/
theorem featureOf_of_mask_true (g : FeatureGrid) (c i j : Nat)
    (h : maskOf g (i, j) = true) : featureOf g c (i, j) = instAt g c i j := by
  rw [featureOf_apply, h, if_pos rfl, mul_one]

/-- On a masked-out cell the feature matrix returns `0`. -/
theorem featureOf_of_mask_false (g : FeatureGrid) (c i j : Nat)
    (h : maskOf g (i, j) = false) : featureOf g c (i, j) = 0 := by
  rw [featureOf_apply, h]
  simp

/-! ### Helper lemmas: `ratTrunc` and list access -/

/-- Computing `ratTrunc` on a nonnegative rational via floor bounds. -/
theorem ratTrunc_eq_of (q : ℚ) (n : ℤ) (h0 : 0 ≤ q) (h1 : (n : ℚ) ≤ q)
    (h2 : q < n + 1) : ratTrunc q = n := by
  rw [ratTrunc, if_pos h0]
  rw [Int.floor_eq_iff]
  exact ⟨h1, h2⟩

theorem getD_set_self {α : Type} (l : List α) (k : Nat) (a d : α)
    (h : k < l.length) : (l.set k a).getD k d = a := by
  simp [List.getD_eq_getElem?_getD, List.getElem?_set_self', h,
    List.getElem?_eq_getElem]

theorem getD_set_ne {α : Type} (l : List α) (k k' : Nat) (a d : α)
    (h : k ≠ k') : (l.set k a).getD k' d = l.getD k' d := by
  simp [List.getD_eq_getElem?_getD, List.getElem?_set_ne h]

theorem getD_append_lt {α : Type} (l1 l2 : List α) (k : Nat) (d : α)
    (h : k < l1.length) : (l1 ++ l2).getD k d = l1.getD k d := by
  rw [List.getD_eq_getElem?_getD, List.getD_eq_getElem?_getD,
    List.getElem?_append, if_pos h]

theorem getD_append_len {α : Type} (l1 : List α) (a d : α) :
    (l1 ++ [a]).getD l1.length d = a := by
  simp [List.getD_eq_getElem?_getD, List.getElem?_concat_length]

/-- Updating the freshly appended slot of `l ++ [a]` rewrites it in place. -/
theorem set_concat_length {α : Type} (l : List α) (a b : α) :
    (l ++ [a]).set l.length b = l ++ [b] := by
  induction l with
  | nil => rfl
  | cons x xs ih => simp [List.set, ih]

/-! ### Helper lemmas: the keypoint loop -/

/-- A cell with a degenerate (near-zero) embedding yields no keypoint. -/
theorem cellKeypoint_none_of_degenerate (H W : Nat)
    (feat : Nat → Nat × Nat → ℚ) (i j : Nat)
    (hf : |feat 0 (i, j)| + |feat 1 (i, j)| < 1 / 1000000) :
    cellKeypoint H W feat i j = none := by
  simp only [cellKeypoint]
  rw [if_pos hf]

/-- A cell whose reconstructed point lands outside the grid extents yields
no keypoint. -/
theorem cellKeypoint_none_of_oob (H W : Nat)
    (feat : Nat → Nat × Nat → ℚ) (i j : Nat)
    (hb : ratTrunc ((feat 0 (i, j) + (j : ℚ)) * resize_ratio) < 0 ∨
      (W : ℤ) ≤ ratTrunc ((feat 0 (i, j) + (j : ℚ)) * resize_ratio) ∨
      ratTrunc ((feat 1 (i, j) + (i : ℚ)) * resize_ratio) < 0 ∨
      (H : ℤ) ≤ ratTrunc ((feat 1 (i, j) + (i : ℚ)) * resize_ratio)) :
    cellKeypoint H W feat i j = none := by
  simp only [cellKeypoint]
  split_ifs with h1
  · rfl
  · rfl

/-- A surviving cell yields exactly the keypoint built from its feature
values and truncated point. -/
theorem cellKeypoint_eq_some (H W : Nat) (feat : Nat → Nat × Nat → ℚ)
    (i j : Nat) (px py : ℤ)
    (hf : ¬ |feat 0 (i, j)| + |feat 1 (i, j)| < 1 / 1000000)
    (hx : ratTrunc ((feat 0 (i, j) + (j : ℚ)) * resize_ratio) = px)
    (hy : ratTrunc ((feat 1 (i, j) + (i : ℚ)) * resize_ratio) = py)
    (hb : ¬ (px < 0 ∨ (W : ℤ) ≤ px ∨ py < 0 ∨ (H : ℤ) ≤ py)) :
    cellKeypoint H W feat i j =
      some (Keypoint.mk i j px py (feat 0 (i, j), feat 1 (i, j))) := by
  simp only [cellKeypoint]
  split_ifs with h1
  · rw [hx, hy] at h1
    exact absurd h1 hb
  · rw [hx, hy]

/-- Inversion: the data a produced keypoint carries is determined by its
source cell. -/
theorem cellKeypoint_inv (H W : Nat) (feat : Nat → Nat × Nat → ℚ)
    (i j : Nat) (kp : Keypoint)
    (h : cellKeypoint H W feat i j = some kp) :
    kp.i = i ∧ kp.j = j ∧
    kp.f = (feat 0 (i, j), feat 1 (i, j)) ∧
    kp.px = ratTrunc ((feat 0 (i, j) + (j : ℚ)) * resize_ratio) ∧
    kp.py = ratTrunc ((feat 1 (i, j) + (i : ℚ)) * resize_ratio) := by
  simp only [cellKeypoint] at h
  split_ifs at h with h1 h2
  injection h with h3
  rw [← h3]
  exact ⟨rfl, rfl, rfl, rfl, rfl⟩

/-- Membership in the keypoint list is membership at some in-range cell. -/
theorem mem_keypointLoop (H W : Nat) (feat : Nat → Nat × Nat → ℚ)
    (kp : Keypoint) :
    kp ∈ keypointLoop H W feat ↔
      ∃ i, i < H ∧ ∃ j, j < W ∧ cellKeypoint H W feat i j = some kp := by
  simp [keypointLoop, List.mem_flatMap, List.mem_filterMap, List.mem_range]

/-! ### Helper lemmas: the candidate scan -/

theorem scanClusters_eq_none (f : ℚ × ℚ) (l : List (ℚ × ℚ)) :
    scanClusters f l = none ↔ ∀ m ∈ l, ¬ instMatch f m := by
  induction l with
  | nil => simp [scanClusters]
  | cons m rest ih =>
    rw [scanClusters]
    by_cases hm : instMatch f m
    · simp [hm]
    · simp [hm, Option.map_eq_none', ih]

theorem scanClusters_eq_some (f : ℚ × ℚ) (l : List (ℚ × ℚ)) (n : Nat)
    (h : scanClusters f l = some n) :
    n < l.length ∧ instMatch f (l.getD n (0, 0)) ∧
      ∀ k, k < n → ¬ instMatch f (l.getD k (0, 0)) := by
  induction l generalizing n with
  | nil => simp [scanClusters] at h
  | cons m rest ih =>
    rw [scanClusters] at h
    by_cases hm : instMatch f m
    · rw [if_pos hm] at h
      injection h with h0
      subst h0
      exact ⟨Nat.succ_pos _, by simpa using hm, fun k hk => absurd hk (Nat.not_lt_zero k)⟩
    · rw [if_neg hm] at h
      obtain ⟨a, ha, hn⟩ := Option.map_eq_some'.mp h
      subst hn
      obtain ⟨h1, h2, h3⟩ := ih a ha
      refine ⟨Nat.succ_lt_succ h1, by simpa using h2, ?_⟩
      intro k hk
      cases k with
      | zero => simpa using hm
      | succ k' =>
        rw [List.getD_cons_succ]
        exact h3 k' (Nat.lt_of_succ_lt_succ hk)

theorem scanClusters_append_none (f : ℚ × ℚ) (l1 l2 : List (ℚ × ℚ))
    (h : ∀ m ∈ l1, ¬ instMatch f m) :
    scanClusters f (l1 ++ l2) =
      (scanClusters f l2).map (fun n => n + l1.length) := by
  induction l1 with
  | nil => simp
  | cons m rest ih =>
    have hm : ¬ instMatch f m := h m (List.mem_cons_self m rest)
    rw [List.cons_append, scanClusters, if_neg hm,
      ih (fun x hx => h x (List.mem_cons_of_mem m hx)), Option.map_map]
    rfl

/-! ### Helper lemmas: shapes of one clustering step -/

/-- When no cluster matches (and the pre-state has at most 12 clusters with
aligned bookkeeping), the step founds a fresh cluster holding just this
keypoint. -/
theorem clusterStep_noMatch (s : ClusterState) (kp : Keypoint)
    (h : scanClusters kp.f s.laneFeature = none)
    (hx : s.xs.length = s.laneFeature.length)
    (hy : s.ys.length = s.laneFeature.length)
    (hm : s.members.length = s.laneFeature.length)
    (hlen : s.laneFeature.length ≤ 12) :
    clusterStep s kp = ClusterState.mk (s.laneFeature ++ [kp.f])
      (s.xs ++ [[kp.px]]) (s.ys ++ [[kp.py]]) (s.members ++ [[kp.f]]) := by
  rw [clusterStep]
  by_cases he : s.laneFeature.isEmpty
  · have h0 : s.laneFeature = [] := List.isEmpty_iff.mp he
    have hx0 : s.xs = [] := List.eq_nil_of_length_eq_zero (by rw [hx, h0]; rfl)
    have hy0 : s.ys = [] := List.eq_nil_of_length_eq_zero (by rw [hy, h0]; rfl)
    have hm0 : s.members = [] := List.eq_nil_of_length_eq_zero (by rw [hm, h0]; rfl)
    rw [if_pos he, h0, hx0, hy0, hm0]
    rfl
  · rw [if_neg he]
    simp only [h]
    have hidx : min s.laneFeature.length 12 = s.laneFeature.length :=
      Nat.min_eq_left hlen
    rw [hidx]
    have hxset : (s.xs ++ [[]]).set s.laneFeature.length
        (((s.xs ++ [[]]).getD s.laneFeature.length []) ++ [kp.px]) =
        s.xs ++ [[kp.px]] := by
      rw [← hx, getD_append_len, set_concat_length]
      simp
    have hyset : (s.ys ++ [[]]).set s.laneFeature.length
        (((s.ys ++ [[]]).getD s.laneFeature.length []) ++ [kp.py]) =
        s.ys ++ [[kp.py]] := by
      rw [← hy, getD_append_len, set_concat_length]
      simp
    rw [hxset, hyset]

/-- When the scan matches at position `fi`, the step updates the mean of
cluster `fi` using the length of the coordinate list at `min fi 11`, and
appends the point there. -/
theorem clusterStep_match (s : ClusterState) (kp : Keypoint) (fi : Nat)
    (h : scanClusters kp.f s.laneFeature = some fi) :
    clusterStep s kp = ClusterState.mk
      (s.laneFeature.set fi
        (((s.laneFeature.getD fi (0, 0)).1 *
            ((s.xs.getD (min fi 11) []).length : ℚ) + kp.f.1) /
           (((s.xs.getD (min fi 11) []).length : ℚ) + 1),
         ((s.laneFeature.getD fi (0, 0)).2 *
            ((s.xs.getD (min fi 11) []).length : ℚ) + kp.f.2) /
           (((s.xs.getD (min fi 11) []).length : ℚ) + 1)))
      (s.xs.set (min fi 11) ((s.xs.getD (min fi 11) []) ++ [kp.px]))
      (s.ys.set (min fi 11) ((s.ys.getD (min fi 11) []) ++ [kp.py]))
      (s.members.set fi ((s.members.getD fi []) ++ [kp.f])) := by
  have hne : ¬ s.laneFeature.isEmpty = true := by
    intro h0
    rw [List.isEmpty_iff.mp h0] at h
    simp [scanClusters] at h
  rw [clusterStep, if_neg hne]
  simp only [h]

theorem clusterStep_length_le (s : ClusterState) (kp : Keypoint) :
    s.laneFeature.length ≤ (clusterStep s kp).laneFeature.length := by
  rw [clusterStep]
  by_cases he : s.laneFeature.isEmpty
  · rw [if_pos he, List.isEmpty_iff.mp he]
    simp
  · rw [if_neg he]
    cases hscan : scanClusters kp.f s.laneFeature with
    | none => simp
    | some fi => simp [List.length_set]

/-! ### Helper lemmas: arithmetic of the running mean -/

theorem meanVec_singleton (f : ℚ × ℚ) : meanVec [f] = f := by
  simp [meanVec]

theorem meanVec_append (l : List (ℚ × ℚ)) (f : ℚ × ℚ) (hl : l ≠ []) :
    meanVec (l ++ [f]) =
      (((meanVec l).1 * (l.length : ℚ) + f.1) / ((l.length : ℚ) + 1),
       ((meanVec l).2 * (l.length : ℚ) + f.2) / ((l.length : ℚ) + 1)) := by
  have hn : (l.length : ℚ) ≠ 0 := by
    have := List.length_pos.mpr hl
    positivity
  simp only [meanVec, List.map_append, List.sum_append, List.length_append,
    List.map_cons, List.map_nil, List.sum_cons, List.sum_nil, List.length_cons,
    List.length_nil]
  rw [Prod.mk.injEq]
  constructor
  · rw [div_mul_cancel₀ _ hn]
    push_cast
    ring
  · rw [div_mul_cancel₀ _ hn]
    push_cast
    ring

/-! ### Helper lemmas: preservation of the running-mean invariant -/

theorem meanInv_init : MeanInv initState := by
  refine ⟨rfl, rfl, rfl, ?_⟩
  intro k hk
  simp [initState] at hk

theorem meanInv_step (s : ClusterState) (kp : Keypoint)
    (hs : MeanInv s) (hlen : s.laneFeature.length ≤ 12) :
    MeanInv (clusterStep s kp) := by
  obtain ⟨hx, hy, hm, hk⟩ := hs
  cases hscan : scanClusters kp.f s.laneFeature with
  | none =>
    rw [clusterStep_noMatch s kp hscan hx hy hm hlen]
    refine ⟨by simp [hx], by simp [hy], by simp [hm], ?_⟩
    intro k hk2
    simp only [List.length_append, List.length_cons, List.length_nil] at hk2
    by_cases hklt : k < s.laneFeature.length
    · have e1 : (s.xs ++ [[kp.px]]).getD k [] = s.xs.getD k [] :=
        getD_append_lt _ _ _ _ (by rw [hx]; exact hklt)
      have e2 : (s.members ++ [[kp.f]]).getD k [] = s.members.getD k [] :=
        getD_append_lt _ _ _ _ (by rw [hm]; exact hklt)
      have e3 : (s.laneFeature ++ [kp.f]).getD k (0, 0) =
          s.laneFeature.getD k (0, 0) := getD_append_lt _ _ _ _ hklt
      rw [e1, e2, e3]
      exact hk k hklt
    · have hkeq : k = s.laneFeature.length := by omega
      subst hkeq
      have e1 : (s.xs ++ [[kp.px]]).getD s.laneFeature.length [] = [kp.px] := by
        rw [← hx]; exact getD_append_len _ _ _
      have e2 : (s.members ++ [[kp.f]]).getD s.laneFeature.length [] = [kp.f] := by
        rw [← hm]; exact getD_append_len _ _ _
      have e3 : (s.laneFeature ++ [kp.f]).getD s.laneFeature.length (0, 0) = kp.f :=
        getD_append_len _ _ _
      rw [e1, e2, e3]
      exact ⟨rfl, by simp, (meanVec_singleton kp.f).symm⟩
  | some fi =>
    obtain ⟨hfi, hmatch, hfirst⟩ := scanClusters_eq_some kp.f s.laneFeature fi hscan
    have hli : min fi 11 = fi := Nat.min_eq_left (by omega)
    rw [clusterStep_match s kp fi hscan, hli]
    refine ⟨by simp [hx], by simp [hy], by simp [hm], ?_⟩
    intro k hk2
    rw [List.length_set] at hk2
    by_cases hkfi : k = fi
    · subst hkfi
      rw [getD_set_self _ _ _ _ hfi,
        getD_set_self _ _ _ _ (by rw [hx]; exact hfi),
        getD_set_self _ _ _ _ (by rw [hm]; exact hfi)]
      obtain ⟨hkl, hkne, hkmean⟩ := hk k hfi
      refine ⟨by rw [List.length_append, List.length_append, hkl]; rfl, by simp, ?_⟩
      rw [meanVec_append _ _ hkne, hkl, hkmean]
    · have hne : fi ≠ k := fun he => hkfi he.symm
      rw [getD_set_ne _ _ _ _ _ hne, getD_set_ne _ _ _ _ _ hne,
        getD_set_ne _ _ _ _ _ hne]
      exact hk k hk2

theorem foldl_length_le (l : List Keypoint) :
    ∀ s : ClusterState,
      s.laneFeature.length ≤ (l.foldl clusterStep s).laneFeature.length := by
  induction l with
  | nil => intro s; simp
  | cons kp rest ih =>
    intro s
    rw [List.foldl_cons]
    exact le_trans (clusterStep_length_le s kp) (ih (clusterStep s kp))

theorem foldl_meanInv (l : List Keypoint) :
    ∀ s : ClusterState, MeanInv s →
      (l.foldl clusterStep s).laneFeature.length ≤ 12 →
      MeanInv (l.foldl clusterStep s) := by
  induction l with
  | nil =>
    intro s hs _
    simpa using hs
  | cons kp rest ih =>
    intro s hs hfin
    rw [List.foldl_cons] at hfin ⊢
    refine ih (clusterStep s kp) (meanInv_step s kp hs ?_) hfin
    have h2 := foldl_length_le rest (clusterStep s kp)
    have h1 := clusterStep_length_le s kp
    omega

/-! ### Helper lemmas: concrete cluster runs -/

/-- Two embeddings whose first components differ by at least 1 never match:
the threshold square `0.0484` is below `1`. -/
theorem not_instMatch_of_one_le (f m : ℚ × ℚ) (h : 1 ≤ |f.1 - m.1|) :
    ¬ instMatch f m := by
  intro hm
  rw [instMatch, threshold_instance] at hm
  have h4 : (1 : ℚ) ≤ (f.1 - m.1) ^ 4 := by
    have h0 := pow_le_pow_left₀ (by norm_num : (0 : ℚ) ≤ 1) h 4
    rw [one_pow, pow_abs,
      abs_of_nonneg (by positivity : (0 : ℚ) ≤ (f.1 - m.1) ^ 4)] at h0
    exact h0
  have h2 : (0 : ℚ) ≤ (f.2 - m.2) ^ 4 := by positivity
  nlinarith

theorem getD_map_range {α : Type} (f : Nat → α) (n k : Nat) (d : α)
    (h : k < n) : (((List.range n).map f).getD k d) = f k := by
  rw [List.getD_eq_getElem?_getD, List.getElem?_map, List.getElem?_range h]
  rfl

theorem getD_replicate {α : Type} (n k : Nat) (a d : α) (h : k < n) :
    (List.replicate n a).getD k d = a := by
  rw [List.getD_eq_getElem?_getD, List.getElem?_replicate, if_pos h]
  rfl

/-- A keypoint far (first component) from every founding embedding fails
the whole scan over `createState k`. -/
theorem createState_noMatch (k : Nat) (f : ℚ × ℚ)
    (hf : ∀ j : Nat, j < k → 1 ≤ |f.1 - (j : ℚ)|) :
    scanClusters f (createState k).laneFeature = none := by
  rw [scanClusters_eq_none]
  intro m hmem
  simp only [createState, List.mem_map, List.mem_range] at hmem
  obtain ⟨j, hj, hjm⟩ := hmem
  apply not_instMatch_of_one_le
  rw [← hjm]
  exact hf j hj

/-- Running the clusterer on `n ≤ 13` widely separated keypoints founds `n`
singleton clusters (all coordinate lists land at their own positions: the
position clamp only bites past the 13th cluster). -/
theorem createKps_run (n : Nat) (hn : n ≤ 13) :
    clusterRun (createKps n) = createState n := by
  induction n with
  | zero => rfl
  | succ k ih =>
    have hsplit : createKps (k + 1) = createKps k ++ [kpF (k : ℚ)] := by
      rw [createKps, List.range_succ, List.map_append]
      rfl
    rw [clusterRun, hsplit, List.foldl_append, ← clusterRun, ih (by omega),
      List.foldl_cons, List.foldl_nil]
    have hscan : scanClusters (kpF (k : ℚ)).f (createState k).laneFeature = none := by
      apply createState_noMatch
      intro j hj
      show (1 : ℚ) ≤ |(k : ℚ) - (j : ℚ)|
      have hjk : (j : ℚ) + 1 ≤ (k : ℚ) := by exact_mod_cast hj
      rw [abs_of_nonneg (by linarith)]
      linarith
    have hxl : (createState k).xs.length = (createState k).laneFeature.length := by
      simp [createState]
    have hyl : (createState k).ys.length = (createState k).laneFeature.length := by
      simp [createState]
    have hml : (createState k).members.length = (createState k).laneFeature.length := by
      simp [createState]
    have hl12 : (createState k).laneFeature.length ≤ 12 := by
      simp only [createState, List.length_map, List.length_range]
      omega
    rw [clusterStep_noMatch _ _ hscan hxl hyl hml hl12]
    simp [createState, kpF, List.range_succ, List.replicate_succ']

/-- The first 11 founding embeddings are all far from any value at least
`11`. -/
theorem first_eleven_noMatch (q : ℚ) (hq : (11 : ℚ) ≤ q) :
    ∀ m ∈ (List.range 11).map (fun (k : Nat) => ((k : ℚ), (0 : ℚ))),
      ¬ instMatch (q, (0 : ℚ)) m := by
  intro m hmem
  simp only [List.mem_map, List.mem_range] at hmem
  obtain ⟨j, hj, hjm⟩ := hmem
  apply not_instMatch_of_one_le
  rw [← hjm]
  show (1 : ℚ) ≤ |q - (j : ℚ)|
  have hjq : (j : ℚ) ≤ 10 := by
    have h10 : j ≤ 10 := by omega
    exact_mod_cast h10
  rw [abs_of_nonneg (by linarith)]
  linarith

/-- The cluster list after 13 foundings, split around position 11. -/
theorem createState13_split :
    (createState 13).laneFeature =
      ((List.range 11).map (fun (k : Nat) => ((k : ℚ), (0 : ℚ)))) ++
        [((11 : ℚ), (0 : ℚ)), ((12 : ℚ), (0 : ℚ))] := by
  show ((List.range 13).map (fun (k : Nat) => ((k : ℚ), (0 : ℚ)))) = _
  rw [show (13 : Nat) = 11 + 1 + 1 from rfl, List.range_succ, List.range_succ,
    List.map_append, List.map_append, List.append_assoc]
  rfl

/-- Step 14 of the counterexample run. -/
theorem exKps_step14 :
    clusterStep (createState 13) (kpF (111 / 10)) = exState14 := by
  have hscan : scanClusters ((111 : ℚ) / 10, (0 : ℚ))
      (createState 13).laneFeature = some 11 := by
    rw [createState13_split,
      scanClusters_append_none _ _ _
        (first_eleven_noMatch ((111 : ℚ) / 10) (by norm_num))]
    rw [scanClusters, if_pos (by rw [instMatch, threshold_instance]; norm_num)]
    simp
  rw [clusterStep_match _ _ 11 hscan]
  have hgl : (createState 13).laneFeature.getD 11 (0, 0) = ((11 : ℚ), (0 : ℚ)) := by
    simp only [createState]
    exact getD_map_range _ _ _ _ (by norm_num)
  have hgx : (createState 13).xs.getD 11 [] = [(0 : ℤ)] := by
    simp only [createState]
    exact getD_replicate _ _ _ _ (by norm_num)
  have hgy : (createState 13).ys.getD 11 [] = [(0 : ℤ)] := by
    simp only [createState]
    exact getD_replicate _ _ _ _ (by norm_num)
  have hgm : (createState 13).members.getD 11 [] = [((11 : ℚ), (0 : ℚ))] := by
    simp only [createState]
    exact getD_map_range _ _ _ _ (by norm_num)
  simp only [Nat.min_self, hgl, hgx, hgy, hgm, exState14]
  norm_num [kpF, ClusterState.mk.injEq, Prod.mk.injEq]

/-- The cluster list after step 14, split around position 11. -/
theorem exKps_lane14_split :
    exState14.laneFeature =
      ((List.range 11).map (fun (k : Nat) => ((k : ℚ), (0 : ℚ)))) ++
        [((221 : ℚ) / 20, (0 : ℚ)), ((12 : ℚ), (0 : ℚ))] := by
  simp only [exState14]
  rw [createState13_split, List.set_append_right _ _ (by simp)]
  simp

/-- Step 15 of the counterexample run. -/
theorem exKps_step15 : clusterStep exState14 (kpF (121 / 10)) = exState15 := by
  have hscan : scanClusters ((121 : ℚ) / 10, (0 : ℚ)) exState14.laneFeature =
      some 12 := by
    rw [exKps_lane14_split,
      scanClusters_append_none _ _ _
        (first_eleven_noMatch ((121 : ℚ) / 10) (by norm_num))]
    rw [scanClusters,
      if_neg (not_instMatch_of_one_le _ _ (by norm_num [abs_of_nonneg])),
      scanClusters, if_pos (by rw [instMatch, threshold_instance]; norm_num)]
    simp
  rw [clusterStep_match _ _ 12 hscan]
  have hgl : exState14.laneFeature.getD 12 (0, 0) = ((12 : ℚ), (0 : ℚ)) := by
    simp only [exState14]
    rw [getD_set_ne _ _ _ _ _ (by norm_num : (11 : Nat) ≠ 12)]
    simp only [createState]
    exact getD_map_range _ _ _ _ (by norm_num)
  have hgx : exState14.xs.getD 11 [] = [(0 : ℤ), 0] := by
    simp only [exState14]
    exact getD_set_self _ _ _ _ (by simp [createState])
  have hgy : exState14.ys.getD 11 [] = [(0 : ℤ), 0] := by
    simp only [exState14]
    exact getD_set_self _ _ _ _ (by simp [createState])
  have hgm : exState14.members.getD 12 [] = [((12 : ℚ), (0 : ℚ))] := by
    simp only [exState14]
    rw [getD_set_ne _ _ _ _ _ (by norm_num : (11 : Nat) ≠ 12)]
    simp only [createState]
    exact getD_map_range _ _ _ _ (by norm_num)
  rw [show min 12 11 = 11 from rfl]
  simp only [hgl, hgx, hgy, hgm, exState15]
  norm_num [kpF, ClusterState.mk.injEq, Prod.mk.injEq]

/-- The final state of the counterexample run: cluster 12's mean is
`361/30` while the arithmetic mean of its two assigned embeddings is
`241/20`. -/
theorem exKps_final :
    (clusterRun exKps).laneFeature.getD 12 (0, 0) = ((361 : ℚ) / 30, (0 : ℚ)) ∧
    (clusterRun exKps).members.getD 12 [] =
      [((12 : ℚ), (0 : ℚ)), (121 / 10, 0)] ∧
    (clusterRun exKps).laneFeature.length = 13 := by
  have hrun : clusterRun exKps =
      clusterStep (clusterStep (createState 13) (kpF (111 / 10)))
        (kpF (121 / 10)) := by
    rw [exKps, clusterRun, List.foldl_append, ← clusterRun,
      createKps_run 13 (by norm_num), List.foldl_cons, List.foldl_cons,
      List.foldl_nil]
  rw [hrun, exKps_step14, exKps_step15]
  refine ⟨?_, ?_, ?_⟩
  · simp only [exState15]
    exact getD_set_self _ _ _ _ (by simp [exState14, createState])
  · simp only [exState15]
    exact getD_set_self _ _ _ _ (by simp [exState14, createState])
  · simp [exState15, exState14, createState]

/-! ### Shared evaluation helpers for concrete grids -/

/-- A cell known to produce no keypoint contributes nothing to the output
keypoint list. -/
theorem filter_cell_eq_nil (g : FeatureGrid) (i j : Nat)
    (hnone : cellKeypoint g.H g.W (featureOf g) i j = none) :
    (keypointsOf g).filter (fun kp => kp.i == i && kp.j == j) = [] := by
  rw [List.filter_eq_nil_iff]
  intro kp hmem
  rw [keypointsOf, mem_keypointLoop] at hmem
  obtain ⟨i2, hi2, j2, hj2, hc⟩ := hmem
  obtain ⟨hki, hkj, _, _, _⟩ := cellKeypoint_inv _ _ _ _ _ _ hc
  simp only [Bool.and_eq_true, beq_iff_eq]
  rintro ⟨hii, hjj⟩
  rw [hki] at hii
  rw [hkj] at hjj
  rw [← hii, ← hjj] at hnone
  rw [hnone] at hc
  exact absurd hc (by simp)

/-- The mask is clear at a cell whose confidence does not beat the
threshold. -/
theorem maskOf_eq_false (g : FeatureGrid) (i j : Nat)
    (h : ¬ threshold_point < confAt g i j) : maskOf g (i, j) = false := by
  cases hb : maskOf g (i, j) with
  | false => rfl
  | true => exact absurd ((maskOf_iff g i j).mp hb).2.2 h

/-! ## Claim C1 -/

/-- Claim C1 is false as stated.  After one keypoint founds a cluster with
mean `(0, 0)`, the keypoint with embedding `(7/20, 7/20)` has squared
distance `49/200 = 0.245 > threshold_instance = 0.22` to that mean — per
the claim it must not match — yet the code assigns it to that cluster: the
cluster count stays 1 and its member list receives the embedding (the
code's metric is the norm of the componentwise-squared difference,
`sqrt(2 * (7/20)^4) ≈ 0.173 ≤ 0.22`). -/
theorem claim1_counterexample :
    (clusterRun [kpF 0]).laneFeature = [((0 : ℚ), (0 : ℚ))] ∧
    threshold_instance <
      sqDistSpec ((7 : ℚ) / 20, (7 : ℚ) / 20) ((0 : ℚ), (0 : ℚ)) ∧
    (clusterRun [kpF 0, Keypoint.mk 0 1 0 0 (7 / 20, 7 / 20)]).laneFeature.length
      = 1 ∧
    (clusterRun [kpF 0, Keypoint.mk 0 1 0 0 (7 / 20, 7 / 20)]).members.getD 0 []
      = [((0 : ℚ), (0 : ℚ)), (7 / 20, 7 / 20)] := by
  have e1 : clusterRun [kpF 0] =
      ClusterState.mk [((0 : ℚ), (0 : ℚ))] [[0]] [[0]] [[((0 : ℚ), (0 : ℚ))]] :=
    rfl
  have hscan : scanClusters ((7 : ℚ) / 20, (7 : ℚ) / 20)
      [((0 : ℚ), (0 : ℚ))] = some 0 := by
    rw [scanClusters, if_pos (by rw [instMatch, threshold_instance]; norm_num)]
  have e2 : clusterRun [kpF 0, Keypoint.mk 0 1 0 0 (7 / 20, 7 / 20)] =
      clusterStep
        (ClusterState.mk [((0 : ℚ), (0 : ℚ))] [[0]] [[0]] [[((0 : ℚ), (0 : ℚ))]])
        (Keypoint.mk 0 1 0 0 (7 / 20, 7 / 20)) := rfl
  refine ⟨by rw [e1], by rw [sqDistSpec, threshold_instance]; norm_num, ?_, ?_⟩
  · rw [e2, clusterStep_match _ _ 0 hscan]
    rfl
  · rw [e2, clusterStep_match _ _ 0 hscan]
    rfl

/-- Claim C1 (amended): during one clustering step, the keypoint is
assigned to — its embedding joins the member list of — the first candidate
cluster in creation order whose ℓ2 norm of the componentwise-squared
embedding difference is at most `threshold_instance` (equivalently
`Δ₀⁴ + Δ₁⁴ ≤ threshold_instance²`, inclusively); no earlier candidate
satisfies the test, and no distance comparison across candidates occurs.
(The claim's squared-distance metric is what the counterexample refutes;
first-match-wins and the inclusive boundary hold.) -/
theorem cluster_first_match (s : ClusterState) (kp : Keypoint) (fi : Nat)
    (h : scanClusters kp.f s.laneFeature = some fi) :
    fi < s.laneFeature.length ∧
    instMatch kp.f (s.laneFeature.getD fi (0, 0)) ∧
    (∀ k, k < fi → ¬ instMatch kp.f (s.laneFeature.getD k (0, 0))) ∧
    (clusterStep s kp).members =
      s.members.set fi ((s.members.getD fi []) ++ [kp.f]) := by
  obtain ⟨h1, h2, h3⟩ := scanClusters_eq_some kp.f s.laneFeature fi h
  refine ⟨h1, h2, h3, ?_⟩
  rw [clusterStep_match s kp fi h]

/-- Witness for `cluster_first_match` at a concrete state and keypoint. -/
theorem cluster_first_match_witness :
    instMatch ((1 : ℚ) / 10, (0 : ℚ))
      ((clusterRun [kpF 0]).laneFeature.getD 0 (0, 0)) ∧
    (clusterStep (clusterRun [kpF 0]) (kpF (1 / 10))).members =
      (clusterRun [kpF 0]).members.set 0
        ((clusterRun [kpF 0]).members.getD 0 [] ++ [((1 : ℚ) / 10, (0 : ℚ))]) := by
  have h : scanClusters (kpF (1 / 10)).f (clusterRun [kpF 0]).laneFeature =
      some 0 := by
    show scanClusters ((1 : ℚ) / 10, (0 : ℚ)) [((0 : ℚ), (0 : ℚ))] = some 0
    rw [scanClusters, if_pos (by rw [instMatch, threshold_instance]; norm_num)]
  have hres := cluster_first_match (clusterRun [kpF 0]) (kpF (1 / 10)) 0 h
  exact ⟨hres.2.1, hres.2.2.2⟩

/-! ## Claim C2 -/

/-- Claim C2 (confirmed): the positive-cell mask built by `generate_result`
marks a cell `(i, j)` if and only if it is in range and its confidence
strictly exceeds `threshold_point` (default 0.81); the mask contains
exactly these cells and no others. -/
theorem confidence_mask_iff (g : FeatureGrid) (i j : Nat) :
    maskOf g (i, j) = true ↔
      i < g.H ∧ j < g.W ∧ threshold_point < confAt g i j :=
  maskOf_iff g i j

/-! ## Claim C3 -/

/-- Claim C3 is false as stated.  On a 1×3 grid whose positive cell `(0,0)`
has offset channels `(0.06, 0.01)` and embedding channels `(0.32, 0.01)`,
the emitted keypoint has `point_x = 2` (truncation of `0.32 * 8 = 2.56`,
computed from the embedding channel), while the claim's formula
`round((dx + col) * resize_ratio)` on the offset channel yields `0`
(`round(0.48)`). -/
theorem claim3_counterexample :
    keypointsOf exGrid3 = [Keypoint.mk 0 0 2 0 (8 / 25, 1 / 100)] ∧
    specPoint (offsAt exGrid3 0 0 0) (offsAt exGrid3 1 0 0) 0 0 = (0, 0) ∧
    ((2 : ℤ), (0 : ℤ)) ≠ ((0 : ℤ), (0 : ℤ)) := by
  have hm0 : maskOf exGrid3 (0, 0) = true := by
    rw [maskOf_iff]
    refine ⟨by norm_num [exGrid3], by norm_num [exGrid3], ?_⟩
    norm_num [confAt, exGrid3, threshold_point]
  have hm1 : maskOf exGrid3 (0, 1) = false := by
    apply maskOf_eq_false
    norm_num [confAt, exGrid3, threshold_point]
  have hm2 : maskOf exGrid3 (0, 2) = false := by
    apply maskOf_eq_false
    norm_num [confAt, exGrid3, threshold_point]
  have hf0 : featureOf exGrid3 0 (0, 0) = 8 / 25 := by
    rw [featureOf_of_mask_true _ _ _ _ hm0]
    norm_num [instAt, exGrid3]
  have hf1 : featureOf exGrid3 1 (0, 0) = 1 / 100 := by
    rw [featureOf_of_mask_true _ _ _ _ hm0]
    norm_num [instAt, exGrid3]
  have hc0 : cellKeypoint 1 3 (featureOf exGrid3) 0 0 =
      some (Keypoint.mk 0 0 2 0 (8 / 25, 1 / 100)) := by
    have hx : ratTrunc ((featureOf exGrid3 0 (0, 0) + ((0 : ℕ) : ℚ)) *
        resize_ratio) = 2 := by
      rw [hf0, show ((8 : ℚ) / 25 + ((0 : ℕ) : ℚ)) * resize_ratio = 64 / 25 by
        rw [ resize_ratio]; push_cast; ring]
      exact ratTrunc_eq_of _ 2 (by norm_num) (by norm_num) (by norm_num)
    have hy : ratTrunc ((featureOf exGrid3 1 (0, 0) + ((0 : ℕ) : ℚ)) *
        resize_ratio) = 0 := by
      rw [hf1, show ((1 : ℚ) / 100 + ((0 : ℕ) : ℚ)) * resize_ratio = 2 / 25 by
        rw [ resize_ratio]; push_cast; ring]
      exact ratTrunc_eq_of _ 0 (by norm_num) (by norm_num) (by norm_num)
    have hres := cellKeypoint_eq_some 1 3 (featureOf exGrid3) 0 0 2 0
      (by rw [hf0, hf1]; norm_num [abs_of_nonneg]) hx hy
      (by decide)
    rw [hres, hf0, hf1]
  have hc1 : cellKeypoint 1 3 (featureOf exGrid3) 0 1 = none := by
    apply cellKeypoint_none_of_degenerate
    rw [featureOf_of_mask_false _ _ _ _ hm1, featureOf_of_mask_false _ _ _ _ hm1]
    norm_num
  have hc2 : cellKeypoint 1 3 (featureOf exGrid3) 0 2 = none := by
    apply cellKeypoint_none_of_degenerate
    rw [featureOf_of_mask_false _ _ _ _ hm2, featureOf_of_mask_false _ _ _ _ hm2]
    norm_num
  refine ⟨?_, ?_, by decide⟩
  · show keypointLoop 1 3 (featureOf exGrid3) = _
    rw [keypointLoop, show List.range 1 = [0] from rfl,
      show List.range 3 = [0, 1, 2] from rfl]
    simp [hc0, hc1, hc2]
  · have ho0 : offsAt exGrid3 0 0 0 = 3 / 50 := by norm_num [offsAt, exGrid3]
    have ho1 : offsAt exGrid3 1 0 0 = 1 / 100 := by norm_num [offsAt, exGrid3]
    rw [specPoint, ho0, ho1]
    rw [show ((3 : ℚ) / 50 + ((0 : ℕ) : ℚ)) * resize_ratio = 12 / 25 by
      rw [ resize_ratio]; push_cast; ring]
    rw [show ((1 : ℚ) / 100 + ((0 : ℕ) : ℚ)) * resize_ratio = 2 / 25 by
      rw [ resize_ratio]; push_cast; ring]
    rw [round_eq, round_eq, Prod.mk.injEq]
    constructor
    · rw [Int.floor_eq_iff]
      constructor <;> norm_num
    · rw [Int.floor_eq_iff]
      constructor <;> norm_num

/-- Claim C3 (amended): every keypoint the loop emits carries the pixel
point computed from the cell's first two mask-scaled embedding channels by
truncation toward zero: `point_x = trunc((feature0 + col) * resize_ratio)`
and `point_y = trunc((feature1 + row) * resize_ratio)`; the offset tensor
is not consulted. -/
theorem keypoint_coords_from_embedding (g : FeatureGrid) (kp : Keypoint)
    (h : kp ∈ keypointsOf g) :
    kp.px = ratTrunc ((featureOf g 0 (kp.i, kp.j) + (kp.j : ℚ)) * resize_ratio) ∧
    kp.py = ratTrunc ((featureOf g 1 (kp.i, kp.j) + (kp.i : ℚ)) * resize_ratio) := by
  rw [keypointsOf, mem_keypointLoop] at h
  obtain ⟨i, hi, j, hj, hc⟩ := h
  obtain ⟨hki, hkj, _, hkx, hky⟩ := cellKeypoint_inv _ _ _ _ _ _ hc
  subst hki
  subst hkj
  exact ⟨hkx, hky⟩

/-- Witness for `keypoint_coords_from_embedding` on a concrete grid. -/
theorem keypoint_coords_witness :
    (Keypoint.mk 0 0 0 0 ((1 : ℚ) / 16, (1 : ℚ) / 16)) ∈ keypointsOf exGrid1 ∧
    (Keypoint.mk 0 0 0 0 ((1 : ℚ) / 16, (1 : ℚ) / 16)).px =
      ratTrunc ((featureOf exGrid1 0 (0, 0) + ((0 : ℕ) : ℚ)) * resize_ratio) := by
  have hm0 : maskOf exGrid1 (0, 0) = true := by
    rw [maskOf_iff]
    refine ⟨by norm_num [exGrid1], by norm_num [exGrid1], ?_⟩
    norm_num [confAt, exGrid1, threshold_point]
  have hf0 : featureOf exGrid1 0 (0, 0) = 1 / 16 := by
    rw [featureOf_of_mask_true _ _ _ _ hm0]
    norm_num [instAt, exGrid1]
  have hf1 : featureOf exGrid1 1 (0, 0) = 1 / 16 := by
    rw [featureOf_of_mask_true _ _ _ _ hm0]
    norm_num [instAt, exGrid1]
  have hx : ratTrunc ((featureOf exGrid1 0 (0, 0) + ((0 : ℕ) : ℚ)) *
      resize_ratio) = 0 := by
    rw [hf0, show ((1 : ℚ) / 16 + ((0 : ℕ) : ℚ)) * resize_ratio = 1 / 2 by
      rw [ resize_ratio]; push_cast; ring]
    exact ratTrunc_eq_of _ 0 (by norm_num) (by norm_num) (by norm_num)
  have hy : ratTrunc ((featureOf exGrid1 1 (0, 0) + ((0 : ℕ) : ℚ)) *
      resize_ratio) = 0 := by
    rw [hf1, show ((1 : ℚ) / 16 + ((0 : ℕ) : ℚ)) * resize_ratio = 1 / 2 by
      rw [ resize_ratio]; push_cast; ring]
    exact ratTrunc_eq_of _ 0 (by norm_num) (by norm_num) (by norm_num)
  have hc0 : cellKeypoint 1 1 (featureOf exGrid1) 0 0 =
      some (Keypoint.mk 0 0 0 0 ((1 : ℚ) / 16, (1 : ℚ) / 16)) := by
    have hres := cellKeypoint_eq_some 1 1 (featureOf exGrid1) 0 0 0 0
      (by rw [hf0, hf1]; norm_num [abs_of_nonneg]) hx hy
      (by decide)
    rw [hres, hf0, hf1]
  have hmem : (Keypoint.mk 0 0 0 0 ((1 : ℚ) / 16, (1 : ℚ) / 16)) ∈
      keypointsOf exGrid1 := by
    have hkl : keypointsOf exGrid1 =
        [Keypoint.mk 0 0 0 0 ((1 : ℚ) / 16, (1 : ℚ) / 16)] := by
      show keypointLoop 1 1 (featureOf exGrid1) = _
      rw [keypointLoop, show List.range 1 = [0] from rfl]
      simp [hc0]
    rw [hkl]
    exact List.mem_singleton.mpr rfl
  exact ⟨hmem, (keypoint_coords_from_embedding exGrid1 _ hmem).1⟩

/-! ## Claim C4 -/

/-- Claim C4 is false as stated.  On a 1×1 grid whose positive cell has
both embedding channels equal to `0.75e-6` — each strictly below the
epsilon `1e-6` — the cell is NOT skipped: the code compares the SUM of the
absolute values (`1.5e-6`) against the epsilon, so the cell emits a
keypoint and enters clustering. -/
theorem claim4_counterexample :
    maskOf exGridEps (0, 0) = true ∧
    |instAt exGridEps 0 0 0| < 1 / 1000000 ∧
    |instAt exGridEps 1 0 0| < 1 / 1000000 ∧
    keypointsOf exGridEps =
      [Keypoint.mk 0 0 0 0 ((3 : ℚ) / 4000000, (3 : ℚ) / 4000000)] := by
  have hm0 : maskOf exGridEps (0, 0) = true := by
    rw [maskOf_iff]
    refine ⟨by norm_num [exGridEps], by norm_num [exGridEps], ?_⟩
    norm_num [confAt, exGridEps, threshold_point]
  have hf0 : featureOf exGridEps 0 (0, 0) = 3 / 4000000 := by
    rw [featureOf_of_mask_true _ _ _ _ hm0]
    norm_num [instAt, exGridEps]
  have hf1 : featureOf exGridEps 1 (0, 0) = 3 / 4000000 := by
    rw [featureOf_of_mask_true _ _ _ _ hm0]
    norm_num [instAt, exGridEps]
  have hx : ratTrunc ((featureOf exGridEps 0 (0, 0) + ((0 : ℕ) : ℚ)) *
      resize_ratio) = 0 := by
    rw [hf0, show ((3 : ℚ) / 4000000 + ((0 : ℕ) : ℚ)) * resize_ratio =
        3 / 500000 by rw [ resize_ratio]; push_cast; ring]
    exact ratTrunc_eq_of _ 0 (by norm_num) (by norm_num) (by norm_num)
  have hy : ratTrunc ((featureOf exGridEps 1 (0, 0) + ((0 : ℕ) : ℚ)) *
      resize_ratio) = 0 := by
    rw [hf1, show ((3 : ℚ) / 4000000 + ((0 : ℕ) : ℚ)) * resize_ratio =
        3 / 500000 by rw [ resize_ratio]; push_cast; ring]
    exact ratTrunc_eq_of _ 0 (by norm_num) (by norm_num) (by norm_num)
  have hc0 : cellKeypoint 1 1 (featureOf exGridEps) 0 0 =
      some (Keypoint.mk 0 0 0 0 ((3 : ℚ) / 4000000, (3 : ℚ) / 4000000)) := by
    have hres := cellKeypoint_eq_some 1 1 (featureOf exGridEps) 0 0 0 0
      (by rw [hf0, hf1]; norm_num [abs_of_nonneg]) hx hy
      (by decide)
    rw [hres, hf0, hf1]
  refine ⟨hm0, by norm_num [instAt, exGridEps, abs_of_nonneg],
    by norm_num [instAt, exGridEps, abs_of_nonneg], ?_⟩
  show keypointLoop 1 1 (featureOf exGridEps) = _
  rw [keypointLoop, show List.range 1 = [0] from rfl]
  simp [hc0]

/-- Claim C4 (amended): a cell passing the confidence mask is treated as a
degenerate detection and skipped — no keypoint, nothing enters clustering —
when the SUM of the absolute values of its first two embedding channels is
below `1e-6` (in particular when each is below `5e-7`); two channels merely
each below `1e-6` need not be skipped. -/
theorem degenerate_sum_skip (g : FeatureGrid) (i j : Nat)
    (hmask : maskOf g (i, j) = true)
    (hsum : |instAt g 0 i j| + |instAt g 1 i j| < 1 / 1000000) :
    (keypointsOf g).filter (fun kp => kp.i == i && kp.j == j) = [] := by
  apply filter_cell_eq_nil
  apply cellKeypoint_none_of_degenerate
  rw [featureOf_of_mask_true _ _ _ _ hmask, featureOf_of_mask_true _ _ _ _ hmask]
  exact hsum

/-- Witness for `degenerate_sum_skip` on a concrete grid. -/
theorem degenerate_sum_skip_witness :
    (keypointsOf exGridEpsSmall).filter (fun kp => kp.i == 0 && kp.j == 0) =
      [] := by
  apply degenerate_sum_skip
  · rw [maskOf_iff]
    refine ⟨by norm_num [exGridEpsSmall], by norm_num [exGridEpsSmall], ?_⟩
    norm_num [confAt, exGridEpsSmall, threshold_point]
  · norm_num [instAt, exGridEpsSmall, abs_of_nonneg]

/-! ## Claim C5 -/

/-- Claim C5 (confirmed): a cell whose reconstructed point falls outside
`[0, W) × [0, H)` — the grid extents, not the upsampled image extents —
contributes no keypoint: the point is silently skipped and nothing from
that cell enters clustering, while decoding continues normally (the loop
is total). -/
theorem out_of_bounds_skip (g : FeatureGrid) (i j : Nat)
    (hi : i < g.H) (hj : j < g.W)
    (hb : ratTrunc ((featureOf g 0 (i, j) + (j : ℚ)) * resize_ratio) < 0 ∨
      (g.W : ℤ) ≤ ratTrunc ((featureOf g 0 (i, j) + (j : ℚ)) * resize_ratio) ∨
      ratTrunc ((featureOf g 1 (i, j) + (i : ℚ)) * resize_ratio) < 0 ∨
      (g.H : ℤ) ≤ ratTrunc ((featureOf g 1 (i, j) + (i : ℚ)) * resize_ratio)) :
    (keypointsOf g).filter (fun kp => kp.i == i && kp.j == j) = [] := by
  apply filter_cell_eq_nil
  exact cellKeypoint_none_of_oob _ _ _ _ _ hb

/-- Witness for `out_of_bounds_skip`: the positive cell of `exGridOob`
reconstructs to `point_x = 4`, inside the upsampled image extent
(`W * resize_ratio = 8`) but outside the grid extent `W = 1`, and is
skipped. -/
theorem out_of_bounds_skip_witness :
    (keypointsOf exGridOob).filter (fun kp => kp.i == 0 && kp.j == 0) = [] := by
  have hm0 : maskOf exGridOob (0, 0) = true := by
    rw [maskOf_iff]
    refine ⟨by norm_num [exGridOob], by norm_num [exGridOob], ?_⟩
    norm_num [confAt, exGridOob, threshold_point]
  have hf0 : featureOf exGridOob 0 (0, 0) = 1 / 2 := by
    rw [featureOf_of_mask_true _ _ _ _ hm0]
    norm_num [instAt, exGridOob]
  apply out_of_bounds_skip exGridOob 0 0 (by norm_num [exGridOob])
    (by norm_num [exGridOob])
  right
  left
  rw [hf0, show ((1 : ℚ) / 2 + ((0 : ℕ) : ℚ)) * resize_ratio = 4 by
    rw [ resize_ratio]; push_cast; ring]
  rw [ratTrunc_eq_of _ 4 (by norm_num) (by norm_num) (by norm_num)]
  norm_num [exGridOob]

/-! ## Claim C6 -/

/-- Claim C6 is false as stated.  In the run `exKps` (13 founding
keypoints, one joining cluster 11, one matching cluster 12), cluster 12's
final running mean is `(361/30, 0)`, but the arithmetic mean of the two
embeddings assigned to it is `((12 + 121/10)/2, 0) = (241/20, 0)`: past 12
clusters, the clamped index makes the update use cluster 11's point count,
so the incremental update no longer computes the arithmetic mean. -/
theorem claim6_counterexample :
    (clusterRun exKps).laneFeature.getD 12 (0, 0) ≠
      meanVec ((clusterRun exKps).members.getD 12 []) := by
  obtain ⟨h1, h2, _⟩ := exKps_final
  rw [h1, h2, meanVec]
  simp only [List.map_cons, List.map_nil, List.sum_cons, List.sum_nil,
    List.length_cons, List.length_nil]
  intro hcontr
  rw [Prod.mk.injEq] at hcontr
  obtain ⟨hc1, _⟩ := hcontr
  norm_num at hc1

/-- Claim C6 (amended): as long as at most 12 clusters are ever created,
after every single keypoint assignment (every prefix of the run) each
cluster's running mean equals the arithmetic mean of the embeddings of the
keypoints assigned to it, maintained by the incremental update
`mean := (mean * count + embedding) / (count + 1)`. -/
theorem running_mean_invariant (kps : List Keypoint)
    (h : (clusterRun kps).laneFeature.length ≤ 12)
    (pre suf : List Keypoint) (hps : kps = pre ++ suf) (k : Nat)
    (hk : k < (clusterRun pre).laneFeature.length) :
    (clusterRun pre).laneFeature.getD k (0, 0) =
      meanVec ((clusterRun pre).members.getD k []) := by
  have hle : (clusterRun pre).laneFeature.length ≤ 12 := by
    have h2 := foldl_length_le suf (clusterRun pre)
    rw [hps, clusterRun, List.foldl_append, ← clusterRun] at h
    omega
  have hinv := foldl_meanInv pre initState meanInv_init
    (by rw [← clusterRun]; exact hle)
  rw [← clusterRun] at hinv
  exact (hinv.2.2.2 k hk).2.2

/-- Witness for `running_mean_invariant` on a two-keypoint run whose second
keypoint joins the first cluster. -/
theorem running_mean_invariant_witness :
    (clusterRun [kpF 0, kpF (1 / 10)]).laneFeature.getD 0 (0, 0) =
      meanVec ((clusterRun [kpF 0, kpF (1 / 10)]).members.getD 0 []) := by
  have hscan : scanClusters ((1 : ℚ) / 10, (0 : ℚ)) [((0 : ℚ), (0 : ℚ))] =
      some 0 := by
    rw [scanClusters, if_pos (by rw [instMatch, threshold_instance]; norm_num)]
  have e2 : clusterRun [kpF 0, kpF (1 / 10)] =
      clusterStep
        (ClusterState.mk [((0 : ℚ), (0 : ℚ))] [[0]] [[0]] [[((0 : ℚ), (0 : ℚ))]])
        (kpF (1 / 10)) := rfl
  have hlen : (clusterRun [kpF 0, kpF (1 / 10)]).laneFeature.length ≤ 12 := by
    rw [e2, clusterStep_match _ _ 0 hscan]
    simp
  have hk : 0 < (clusterRun [kpF 0, kpF (1 / 10)]).laneFeature.length := by
    rw [e2, clusterStep_match _ _ 0 hscan]
    simp
  exact running_mean_invariant [kpF 0, kpF (1 / 10)] hlen
    [kpF 0, kpF (1 / 10)] [] rfl 0 hk

/-! ## Claim C7 -/

/-- Claim C7 is false as stated.  After the 13 founding keypoints of
`createKps 13`, the keypoint with embedding `(121/10, 0)` matches none of
the first 12 clusters (`noMatchInFirstTwelve` holds), so under the claim —
only the first `min(count, 12)` clusters are candidates — it would found a
14th cluster; but the code's scan visits all 13 clusters, matches the 13th,
and the cluster count stays 13. -/
theorem claim7_counterexample :
    noMatchInFirstTwelve (clusterRun (createKps 13)) ((121 : ℚ) / 10, (0 : ℚ))
      = true ∧
    (clusterRun (createKps 13)).laneFeature.length = 13 ∧
    (clusterStep (clusterRun (createKps 13)) (kpF (121 / 10))).laneFeature.length
      = 13 := by
  have h13 : clusterRun (createKps 13) = createState 13 :=
    createKps_run 13 (by norm_num)
  have htake : (createState 13).laneFeature.take 12 =
      (List.range 12).map (fun (k : Nat) => ((k : ℚ), (0 : ℚ))) := by
    show (((List.range 13).map (fun (k : Nat) => ((k : ℚ), (0 : ℚ)))).take 12) = _
    rw [← List.map_take, List.take_range]
    norm_num
  refine ⟨?_, ?_, ?_⟩
  · rw [h13, noMatchInFirstTwelve, htake, List.all_eq_true]
    intro m hmem
    simp only [List.mem_map, List.mem_range] at hmem
    obtain ⟨kk, hkk, hkm⟩ := hmem
    rw [Bool.not_eq_true', instMatchB, decide_eq_false_iff_not]
    apply not_instMatch_of_one_le
    rw [← hkm]
    show (1 : ℚ) ≤ |(121 : ℚ) / 10 - (kk : ℚ)|
    have hk11 : (kk : ℚ) ≤ 11 := by exact_mod_cast Nat.lt_succ_iff.mp hkk
    rw [abs_of_nonneg (by linarith)]
    linarith
  · rw [h13]
    simp [createState]
  · rw [h13]
    have hscan : scanClusters ((121 : ℚ) / 10, (0 : ℚ))
        (createState 13).laneFeature = some 12 := by
      rw [createState13_split,
        scanClusters_append_none _ _ _
          (first_eleven_noMatch ((121 : ℚ) / 10) (by norm_num))]
      rw [scanClusters,
        if_neg (not_instMatch_of_one_le _ _ (by norm_num [abs_of_nonneg])),
        scanClusters, if_pos (by rw [instMatch, threshold_instance]; norm_num)]
      simp
    rw [clusterStep_match _ _ 12 hscan]
    simp [createState]

/-- Claim C7 (amended): the candidate scan is unbounded — it considers
every existing cluster in creation order, not only the first
`min(count, 12)`: a keypoint founds a new cluster exactly when NO existing
cluster (at any position) matches it.  The constant 12 only clamps which
coordinate list receives the point and supplies the count of the mean
update. -/
theorem cluster_scan_unbounded (s : ClusterState) (kp : Keypoint)
    (h : s.laneFeature ≠ []) :
    (clusterStep s kp).laneFeature.length = s.laneFeature.length ↔
      ∃ m ∈ s.laneFeature, instMatch kp.f m := by
  cases hscan : scanClusters kp.f s.laneFeature with
  | none =>
    have hnm := (scanClusters_eq_none kp.f s.laneFeature).mp hscan
    rw [clusterStep, if_neg (by simpa [List.isEmpty_iff] using h)]
    simp only [hscan]
    constructor
    · intro hcontr
      rw [List.length_append] at hcontr
      simp at hcontr
    · rintro ⟨m, hm, hmatch⟩
      exact absurd hmatch (hnm m hm)
  | some fi =>
    obtain ⟨h1, h2, _⟩ := scanClusters_eq_some kp.f s.laneFeature fi hscan
    rw [clusterStep_match s kp fi hscan]
    simp only [List.length_set]
    constructor
    · intro _
      refine ⟨s.laneFeature.getD fi (0, 0), ?_, h2⟩
      rw [List.getD_eq_getElem?_getD, List.getElem?_eq_getElem h1,
        Option.getD_some]
      exact List.getElem_mem h1
    · intro _
      trivial

/-- Witness for `cluster_scan_unbounded` at a concrete state and
keypoint. -/
theorem cluster_scan_unbounded_witness :
    (clusterStep (clusterRun [kpF 0]) (kpF (1 / 10))).laneFeature.length =
      (clusterRun [kpF 0]).laneFeature.length := by
  have e1 : clusterRun [kpF 0] =
      ClusterState.mk [((0 : ℚ), (0 : ℚ))] [[0]] [[0]] [[((0 : ℚ), (0 : ℚ))]] :=
    rfl
  apply (cluster_scan_unbounded (clusterRun [kpF 0]) (kpF (1 / 10))
    (by rw [e1]; simp)).mpr
  refine ⟨((0 : ℚ), (0 : ℚ)), by rw [e1]; simp, ?_⟩
  rw [instMatch, threshold_instance]
  norm_num [kpF]

/-! ## Claim C8 -/

/-- Claim C8 is false as stated.  A decode call whose confidence and offset
arrays declare mismatched spatial dimensions (H/W `64×32` vs `7×9`) passes
the only dimension validation the code performs — the channel-count
assertions — so no `ShapeMismatch`-style failure occurs. -/
theorem claim8_counterexample :
    verifyOutputDims (Dims3.mk 1 64 32) (Dims3.mk 2 7 9) (Dims3.mk 4 64 32)
      = true ∧
    specDimsConsistent (Dims3.mk 1 64 32) (Dims3.mk 2 7 9) (Dims3.mk 4 64 32)
      = false := by
  decide

/-- Claim C8 (amended): the only dimension validation of a decode call is
the channel-count assertions — it succeeds if and only if the three arrays
declare 1, 2 and 4 channels respectively; H/W consistency across the arrays
is not checked. -/
theorem verify_dims_channels_only
    (confidanceDims offsetDims instanceDims : Dims3) :
    verifyOutputDims confidanceDims offsetDims instanceDims = true ↔
      confidanceDims.d0 = 1 ∧ offsetDims.d0 = 2 ∧ instanceDims.d0 = 4 := by
  rw [verifyOutputDims]
  simp [Bool.and_eq_true, beq_iff_eq, and_assoc]

/-! ## Claim C9 -/

/-- Claim C9 (confirmed): `generate_result` leaves its three borrowed input
tensors unchanged — every statement of the decode pipeline writes only to
freshly allocated locals (mask, offset matrix, feature matrix, keypoint
list). -/
theorem generate_result_inputs_unchanged (st : GRState) :
    (generate_result st).confidance = st.confidance ∧
    (generate_result st).offsets = st.offsets ∧
    (generate_result st).instanceArr = st.instanceArr :=
  ⟨rfl, rfl, rfl⟩

/-! ## Claim C10 -/

/-- Claim C10 (confirmed): two decode calls that agree on everything except
the offset tensor produce identical observable results — the same mask, the
same feature matrix, and the same keypoint list (hence the same clustering
input): the offset matrix is built and never read afterwards. -/
theorem generate_result_offset_independent (s1 s2 : GRState)
    (hH : s1.H = s2.H) (hW : s1.W = s2.W)
    (hc : s1.confidance = s2.confidance)
    (hi : s1.instanceArr = s2.instanceArr) :
    (generate_result s1).mask = (generate_result s2).mask ∧
    (generate_result s1).featureMat = (generate_result s2).featureMat ∧
    (generate_result s1).result = (generate_result s2).result := by
  cases s1 with
  | mk H1 W1 c1 o1 i1 m1 om1 fm1 r1 =>
  cases s2 with
  | mk H2 W2 c2 o2 i2 m2 om2 fm2 r2 =>
  dsimp only at hH hW hc hi
  subst hH
  subst hW
  subst hc
  subst hi
  exact ⟨rfl, rfl, rfl⟩

/-- Witness for `generate_result_offset_independent`: two states differing
only in their offset tensors (`0` vs `5` everywhere) yield the same
keypoint list. -/
theorem generate_result_offset_independent_witness :
    (generate_result exStateA).result = (generate_result exStateB).result ∧
    exStateA.offsets 0 ≠ exStateB.offsets 0 := by
  refine ⟨(generate_result_offset_independent exStateA exStateB rfl rfl rfl
    rfl).2.2, ?_⟩
  norm_num [exStateA, exStateB]

end PINet
